import Mathlib

/-!
Verification of the SQU1D++ (squ1dcc) core against its specification.

The definitions below are a shallow embedding of the Go sources:

* `Obj` embeds `object.Object` (the tagged runtime value).
* The `VMState` operations embed the functions of `vm/vm.go`
  (`push`, `pop`, `isTruthy`, `executeComparison`,
  `executeIntegerComparison`, `executeStringComparison`,
  `executeBangOperator`, `executeNegateOperator`,
  `executeLogicalOperation`, `executeArrayIndex`, `executeHashIndex`,
  `executeIndexExpression`, `executeCall`, `callClosure`, `callBuiltin`,
  `pushClosure`, and the `Run` dispatch loop).
* The compiler embedding follows `Compiler.Compile` of `main.go`
  (`emit`, `addConstant`, `changeOperand`, the `<` / `<=` / `>=`
  lowering and the `LetStatement` handling with the `unblock` and
  error-pipe flags).
* The evaluator embedding follows `evaluator/evaluator.go`
  (the `ast.LetStatement` case and the `<<` prefix case).
* The lexer embedding follows `token.LookupIdent` of `token/token.go`
  and the identifier branch of `Lexer.NextToken` in `lexer/lexer.go`.
* The serializer embedding follows `Package.Serialize` / `Deserialize`
  and `serializeConstant` / `deserializeConstant` of the `bytecode`
  package.

Machine integers are modelled as `Int` / `Nat` with explicit `% 2 ^ w`
where wrap-around matters.  A Go value of type `float64` is modelled by
its 64-bit pattern (a `Nat` below `2 ^ 64`): no theorem below performs
floating-point arithmetic, the pattern is only stored, compared and
serialized, which is exactly what the covered code paths do with it.
A failed Go type assertion or an out-of-range slice index is a runtime
panic; fallible operations therefore return `Except RunErr _` with a
dedicated `goPanic` error, distinct from the `fatal` errors the VM
returns from `Run()`.
-/

namespace Squ1d

/-- Runtime value, embedding `object.Object`.  `float` stores the IEEE-754
bit pattern of the `float64` field.  `hash` stores the pairs as an
association list in insertion order (the Go map from `HashKey` to
`HashPair`); `builtin` stores the index of the intrinsic in the builtin
registry (the Go value holds the native callback, which the registry
model resolves). -/
inductive Obj where
  | integer (v : Int)
  | float (bits : Nat)
  | boolean (b : Bool)
  | str (s : String)
  | null
  | array (elems : List Obj)
  | hash (pairs : List (Obj × Obj))
  | error (msg : String) (line col : Int)
  | compiledFunction (ins : List Nat) (numLocals numParams : Nat)
  | closure (ins : List Nat) (numLocals numParams : Nat) (free : List Obj)
  | builtin (idx : Nat)

/-- `Object.Type()`.  The `object` package's type-tag strings are not under
`src/`; the tags are taken from the spec's object list and from the error
messages the tests expect (for example `got INTEGER`). -/
def Obj.typeName : Obj → String
  | .integer _ => "INTEGER"
  | .float _ => "FLOAT"
  | .boolean _ => "BOOLEAN"
  | .str _ => "STRING"
  | .null => "NULL"
  | .array _ => "ARRAY"
  | .hash _ => "HASH"
  | .error _ _ _ => "ERROR"
  | .compiledFunction _ _ _ => "COMPILED_FUNCTION"
  | .closure _ _ _ _ => "CLOSURE"
  | .builtin _ => "BUILTIN"

/-- `isError` of the evaluator / the `OpIsError` test: the object's type
tag is `ERROR`. -/
def isErrorObj : Obj → Bool
  | .error _ _ _ => true
  | _ => false

/-- Whether a value implements the `object.Hashable` interface.  The
`object` package is not under `src/`; per the spec, hash keys are the
"hashable" values, which are the scalar Integer, Boolean and String
objects. -/
def hashableB : Obj → Bool
  | .integer _ => true
  | .boolean _ => true
  | .str _ => true
  | _ => false

/-- Equality of `HashKey`s of two hashable values.  `HashKey` pairs the
type tag with a value-derived hash; the embedding treats it as injective
on hashable values (the Go implementation hashes strings, which this
model idealizes as collision-free). -/
def sameHashKey : Obj → Obj → Bool
  | .integer a, .integer b => a == b
  | .boolean a, .boolean b => a == b
  | .str a, .str b => a == b
  | _, _ => false

/-- Go interface equality `right == left` as used by the comparison
fall-through.  All objects are pointers; in the VM the Boolean and Null
objects are the canonical singletons `True` / `False` / `Null`, so
pointer equality coincides with value equality for them.  Two distinct
heap objects of any other type never compare equal; the embedding cannot
distinguish aliases, and no theorem below relies on this case for
non-singleton values. -/
def ptrEq : Obj → Obj → Bool
  | .boolean a, .boolean b => a == b
  | .null, .null => true
  | _, _ => false

/-! ## VM state -/

/-- `vm.StackSize`. -/
def StackSize : Nat := 2048
/-- `vm.GlobalsSize`. -/
def GlobalsSize : Nat := 65536
/-- `vm.MaxFrames`. -/
def MaxFrames : Nat := 1024

/-- How an embedded VM operation can fail: `fatal` is an `error` value
returned from `Run()`; `goPanic` is a Go runtime panic (failed type
assertion or out-of-range index), which terminates the process and in
particular is also not an Error value on the stack. -/
inductive RunErr where
  | fatal (msg : String)
  | goPanic

/-- A call frame (`vm.Frame`): the closure's compiled instructions,
local/parameter counts and captured free values, plus the instruction
pointer (initially `-1`; the dispatch loop pre-increments) and the base
pointer into the operand stack. -/
structure Frame where
  ins : List Nat
  numLocals : Nat
  numParams : Nat
  free : List Obj
  ip : Int
  basePointer : Nat

instance : Inhabited Frame :=
  ⟨{ ins := [], numLocals := 0, numParams := 0, free := [], ip := 0, basePointer := 0 }⟩

/-- The VM state.  The stack is the live region `stack[0 .. sp)`, so
`sp = stack.length`; Go's fixed backing array beyond `sp` holds stale or
nil slots that compiled code never reads before writing.  The globals
array is total with Go's nil slots modelled as `null`. `frames` lists the
frame stack with the current frame first. -/
structure VMState where
  constants : List Obj
  stack : List Obj
  globals : Nat → Obj
  frames : List Frame
  lastOpcode : Nat

/-- `vm.push`: overflow beyond `StackSize` is the fatal error the claim
calls a stack overflow. -/
def VMState.push (st : VMState) (o : Obj) : Except RunErr VMState :=
  if StackSize ≤ st.stack.length then .error (.fatal "STACK OVERFLOW")
  else .ok { st with stack := st.stack ++ [o] }

/-- `vm.pop`: reads `stack[sp-1]`, which panics when `sp = 0`. -/
def VMState.pop (st : VMState) : Except RunErr (Obj × VMState) :=
  match st.stack.getLast? with
  | none => .error .goPanic
  | some o => .ok (o, { st with stack := st.stack.dropLast })

/-- `nativeBoolToBooleanObject`: the Go function returns the `True` /
`False` singletons, which the embedding represents by value. -/
def nativeBoolToBooleanObject (b : Bool) : Obj := .boolean b

/-- `vm.isTruthy`: a Boolean is its value, Null is false, every other
object is truthy. -/
def isTruthy : Obj → Bool
  | .boolean b => b
  | .null => false
  | _ => true

/-! ## Opcodes

Modelled from the spec: the `code` package (opcode numbering, `Make`,
`ReadUint16` / `ReadUint8`) is not under `src/`.  The spec fixes the
opcode set and each opcode's operand widths and says the numbering is
implementation-defined but stable; the numbers below are one such stable
assignment, and `make` / `readUint16` are a matching encoder/decoder
pair (operands are written big-endian, one byte per `u8` operand and two
bytes per `u16` operand). -/

def opConstant : Nat := 0
def opPop : Nat := 1
def opAdd : Nat := 2
def opSub : Nat := 3
def opMul : Nat := 4
def opDiv : Nat := 5
def opMod : Nat := 6
def opTrue : Nat := 7
def opFalse : Nat := 8
def opEqual : Nat := 9
def opNotEqual : Nat := 10
def opGreaterThan : Nat := 11
def opAnd : Nat := 12
def opOr : Nat := 13
def opBang : Nat := 14
def opNGT : Nat := 15
def opJumpNotTruthy : Nat := 16
def opJump : Nat := 17
def opNull : Nat := 18
def opGetGlobal : Nat := 19
def opSetGlobal : Nat := 20
def opArray : Nat := 21
def opHash : Nat := 22
def opIndex : Nat := 23
def opCall : Nat := 24
def opReturnValue : Nat := 25
def opReturn : Nat := 26
def opGetLocal : Nat := 27
def opSetLocal : Nat := 28
def opGetBuiltin : Nat := 29
def opClosure : Nat := 30
def opGetFree : Nat := 31
def opCurrentClosure : Nat := 32
def opDot : Nat := 33
def opSuppress : Nat := 34
def opIsError : Nat := 35
def opErrorExit : Nat := 36

/-- Operand widths per opcode, following the spec's opcode table. -/
def operandWidths (op : Nat) : List Nat :=
  if op = opConstant ∨ op = opJumpNotTruthy ∨ op = opJump ∨
     op = opGetGlobal ∨ op = opSetGlobal ∨ op = opArray ∨ op = opHash then [2]
  else if op = opCall ∨ op = opGetLocal ∨ op = opSetLocal ∨
          op = opGetBuiltin ∨ op = opGetFree then [1]
  else if op = opClosure then [2, 1]
  else []

/-- Encoding of a single operand of the given byte width (big-endian). -/
def encodeOperand (width operand : Nat) : List Nat :=
  if width = 2 then [operand / 256 % 256, operand % 256]
  else if width = 1 then [operand % 256]
  else []

/-- `code.Make`: the opcode byte followed by its encoded operands. -/
def make (op : Nat) (operands : List Nat) : List Nat :=
  op :: ((operandWidths op).zip operands).flatMap fun wv => encodeOperand wv.1 wv.2

/-- `code.ReadUint16` on the byte slice starting at the operand. -/
def readUint16 (bytes : List Nat) : Nat :=
  256 * bytes.getD 0 0 + bytes.getD 1 0

/-- `code.ReadUint8`. -/
def readUint8 (bytes : List Nat) : Nat :=
  bytes.getD 0 0

/-! ## VM executors (vm/vm.go) -/

/-- `vm.executeIntegerComparison`.  The first two arguments are the
popped `left` and `right` objects; the Go code type-asserts both to
`*object.Integer` (a failed assertion is a panic, but the dispatcher
only calls this when both type tags are INTEGER). -/
def executeIntegerComparison (op : Nat) (left right : Obj) (st : VMState) :
    Except RunErr VMState :=
  match left, right with
  | .integer leftValue, .integer rightValue =>
    if op = opEqual then st.push (nativeBoolToBooleanObject (rightValue == leftValue))
    else if op = opNotEqual then st.push (nativeBoolToBooleanObject (rightValue != leftValue))
    else if op = opGreaterThan then
      st.push (nativeBoolToBooleanObject (decide (leftValue > rightValue)))
    else .error (.fatal ("Unknown operator: " ++ toString op))
  | _, _ => .error .goPanic

/-- `vm.executeStringComparison`: only `OpEqual` and `OpNotEqual` are
handled; every other operator (in particular `OpGreaterThan`, which the
compiler emits for all four orderings) falls to the error default. -/
def executeStringComparison (op : Nat) (left right : Obj) (st : VMState) :
    Except RunErr VMState :=
  match left, right with
  | .str leftValue, .str rightValue =>
    if op = opEqual then st.push (nativeBoolToBooleanObject (rightValue == leftValue))
    else if op = opNotEqual then st.push (nativeBoolToBooleanObject (rightValue != leftValue))
    else .error (.fatal ("Unknown operator: " ++ toString op))
  | _, _ => .error .goPanic

/-- `vm.executeComparison`: pop `right` then `left`; Integer pairs and
String pairs dispatch to their comparison helpers, every other pair is
compared by Go pointer equality for `OpEqual` / `OpNotEqual` and is an
error for any other operator. -/
def executeComparison (op : Nat) (st : VMState) : Except RunErr VMState := do
  let (right, st) ← st.pop
  let (left, st) ← st.pop
  if left.typeName == "INTEGER" && right.typeName == "INTEGER" then
    executeIntegerComparison op left right st
  else if left.typeName == "STRING" && right.typeName == "STRING" then
    executeStringComparison op left right st
  else if op = opEqual then st.push (nativeBoolToBooleanObject (ptrEq right left))
  else if op = opNotEqual then st.push (nativeBoolToBooleanObject (!ptrEq right left))
  else
    .error (.fatal ("Unknown operator: " ++ toString op ++ " (" ++
      left.typeName ++ " " ++ right.typeName ++ ")"))

/-- `vm.executeBangOperator`: pop the operand and compare it against the
`True` / `False` / `Null` singletons; anything else maps to `False`.
Every Boolean in the VM is one of the two singletons, which the
embedding represents by value. -/
def executeBangOperator (st : VMState) : Except RunErr VMState := do
  let (operand, st) ← st.pop
  match operand with
  | .boolean true => st.push (.boolean false)
  | .boolean false => st.push (.boolean true)
  | .null => st.push (.boolean true)
  | _ => st.push (.boolean false)

/-- `vm.executeNegateOperator`: the type check admits INTEGER and FLOAT,
but the body then type-asserts `operand.(*object.Integer)`, which panics
on a Float operand. -/
def executeNegateOperator (st : VMState) : Except RunErr VMState := do
  let (operand, st) ← st.pop
  if operand.typeName ≠ "INTEGER" ∧ operand.typeName ≠ "FLOAT" then
    .error (.fatal ("Unsupported type for negation: " ++ operand.typeName))
  else
    match operand with
    | .integer value => st.push (.integer (-value))
    | _ => .error .goPanic

/-- `vm.executeLogicalOperation`: pop both operands, combine their
truthiness. -/
def executeLogicalOperation (op : Nat) (st : VMState) : Except RunErr VMState := do
  let (right, st) ← st.pop
  let (left, st) ← st.pop
  let leftTruthy := isTruthy left
  let rightTruthy := isTruthy right
  if op = opAnd then st.push (nativeBoolToBooleanObject (leftTruthy && rightTruthy))
  else if op = opOr then st.push (nativeBoolToBooleanObject (leftTruthy || rightTruthy))
  else .error (.fatal ("Unknown logical operator: " ++ toString op))

/-- `vm.executeArrayIndex`: a negative index or one beyond
`len(elements)-1` pushes `Null`; otherwise the element is pushed. -/
def executeArrayIndex (array index : Obj) (st : VMState) : Except RunErr VMState :=
  match array, index with
  | .array elems, .integer i =>
    if i < 0 ∨ i > (elems.length : Int) - 1 then st.push .null
    else
      match elems.get? i.toNat with
      | some o => st.push o
      | none => .error .goPanic
  | _, _ => .error .goPanic

/-- `vm.executeHashIndex`: an unhashable key is an error; a missing key
pushes `Null`; otherwise the pair's value is pushed. -/
def executeHashIndex (hash index : Obj) (st : VMState) : Except RunErr VMState :=
  match hash with
  | .hash pairs =>
    if hashableB index then
      match pairs.find? (fun p => sameHashKey p.1 index) with
      | none => st.push .null
      | some p => st.push p.2
    else .error (.fatal ("Unusable as hash key: " ++ index.typeName))
  | _ => .error .goPanic

/-- `vm.executeIndexExpression`: dispatch on the container type. -/
def executeIndexExpression (left index : Obj) (st : VMState) : Except RunErr VMState :=
  if left.typeName == "ARRAY" && index.typeName == "INTEGER" then
    executeArrayIndex left index st
  else if left.typeName == "HASH" then
    executeHashIndex left index st
  else
    .error (.fatal ("Index operator not supported: " ++ left.typeName))

/-! ## Builtins (object/builtins.go) -/

/-- The `cat` intrinsic's native function (`object.Builtins`, entry
`"cat"`): its body is identical in the classless and in the classed
registry.  `String.utf8ByteSize` matches Go's `len` on a string. -/
def catFn (args : List Obj) : Obj :=
  if args.length ≠ 1 then
    .error ("Wrong number of arguments. Expected 1, got " ++ toString args.length) 0 0
  else
    match args.getD 0 .null with
    | .array elems => .integer elems.length
    | .str s => .integer s.utf8ByteSize
    | arg => .error ("Argument 0 to `cat` is not supported, got " ++ arg.typeName) 0 0

/-- The class tag of `cat` in the full builtin registry
(`object/builtins.go`, classed entry: `createBuiltin(..., "array")`). -/
def catClassFull : String := "array"

/-- The class tag of `cat` in the classless registry
(`object/builtins.go`, first registry: `&Builtin{Fn: ...}`, so the
`Class` field is the zero value). -/
def catClassClassless : String := ""

/-- The compiler's bare-name rule for builtin symbols
(`Compiler.Compile`, `ast.Identifier` case): a builtin whose `Class` tag
is non-empty may not be referenced by its bare name. -/
def compilerRejectsBareBuiltin (class_ : String) : Bool :=
  class_ ≠ ""

/-- The evaluator's builtin arm of `evalIdentifier`: a classless builtin
is returned directly; a classed one produces an Error value telling the
user to use `Class.name`. -/
def evalIdentifierBuiltinArm (name cls : String) (idx : Nat) : Obj :=
  if cls = "" then .builtin idx
  else .error ("Builtin '" ++ name ++ "' is in a class. Maybe use " ++
    cls ++ "." ++ name ++ " instead.") 0 0

/-- The native functions reachable through `OpCall` in this embedding:
only `cat` (registry index 0 of the classless registry) is modelled; no
theorem below calls any other intrinsic through the VM (the remaining
intrinsics perform host I/O).  `none` stands for a native that returned
nothing, for which `callBuiltin` pushes `Null`. -/
def builtinFns (idx : Nat) (args : List Obj) : Option Obj :=
  if idx = 0 then some (catFn args) else none

/-! ## Calls and closures (vm/vm.go) -/

/-- `vm.callClosure`: verify the argument count against the compiled
function's parameter count (a mismatch is a fatal error returned from
`Run()`), then push a frame whose base pointer is `sp - numArgs` and
reserve `NumLocals` slots (the parameters are reused as the first
locals; the freshly reserved slots hold Go's nil, modelled as `null`,
and are always written by `OpSetLocal` before being read). -/
def callClosure (ins : List Nat) (numLocals numParams : Nat) (free : List Obj)
    (numArgs : Nat) (st : VMState) : Except RunErr VMState :=
  if numArgs ≠ numParams then
    .error (.fatal ("Wrong number of arguments. Expected " ++ toString numParams ++
      ", got " ++ toString numArgs))
  else
    let basePointer := st.stack.length - numArgs
    if MaxFrames ≤ st.frames.length then
      -- Go's pushFrame writes frames[framesIndex] with no bound check:
      -- beyond MaxFrames this is an index-out-of-range panic.
      .error .goPanic
    else
      let newLen := basePointer + numLocals
      .ok { st with
        frames := { ins := ins, numLocals := numLocals, numParams := numParams,
                    free := free, ip := -1, basePointer := basePointer } :: st.frames,
        stack := (st.stack ++ List.replicate (newLen - st.stack.length) Obj.null).take newLen }

/-- `vm.callBuiltin`: slice the top `numArgs` values, invoke the native,
drop callee and arguments, push the result (or `Null` when the native
returned nothing). -/
def callBuiltin (idx numArgs : Nat) (st : VMState) : Except RunErr VMState :=
  let args := st.stack.drop (st.stack.length - numArgs)
  let result := builtinFns idx args
  let st := { st with stack := st.stack.take (st.stack.length - numArgs - 1) }
  match result with
  | some r => st.push r
  | none => st.push .null

/-- `vm.executeCall`: the callee sits at `sp - 1 - numArgs`; calling a
closure or a builtin dispatches, anything else is a fatal error. -/
def executeCall (numArgs : Nat) (st : VMState) : Except RunErr VMState :=
  if (st.stack.length : Int) - 1 - numArgs < 0 then .error .goPanic
  else
    match st.stack.get? (st.stack.length - 1 - numArgs) with
    | none => .error .goPanic
    | some callee =>
      match callee with
      | .closure ins nl np free => callClosure ins nl np free numArgs st
      | .builtin idx => callBuiltin idx numArgs st
      | _ => .error (.fatal "Calling non-function and non-builtin function.")

/-- `vm.pushClosure`: the constant must be a compiled function; the top
`numFree` stack values become the captured free values. -/
def pushClosure (constIndex numFree : Nat) (st : VMState) : Except RunErr VMState :=
  match st.constants.get? constIndex with
  | none => .error .goPanic
  | some constant =>
    match constant with
    | .compiledFunction ins nl np =>
      let free := st.stack.drop (st.stack.length - numFree)
      let st := { st with stack := st.stack.take (st.stack.length - numFree) }
      st.push (.closure ins nl np free)
    | _ => .error (.fatal "constant is not a function.")

/-! ## The dispatch loop (vm.Run) -/

/-- Apply an update to the current (topmost) frame. -/
def withFrame (st : VMState) (f : Frame → Frame) : VMState :=
  { st with frames := match st.frames with
                      | [] => []
                      | fr :: rest => f fr :: rest }

/-- Advance the current frame's instruction pointer by the operand
width, as the dispatch cases do after reading operands. -/
def VMState.advanceIp (st : VMState) (n : Nat) : VMState :=
  withFrame st fun fr => { fr with ip := fr.ip + n }

/-- Set the current frame's instruction pointer (used by the jumps). -/
def VMState.setIp (st : VMState) (i : Int) : VMState :=
  withFrame st fun fr => { fr with ip := i }

/-- One dispatch case of `vm.Run`, with the opcode already read at byte
offset `ip` of the current frame's instructions (the frame's `ip` field
already points at the opcode).  The cases below embed the dispatch
switch of the `src` VM for the opcodes any theorem executes; the
source's arithmetic (`OpAdd`..`OpMod`), `OpArray`, `OpHash`, `OpDot`,
`OpGetBuiltin` and `OpErrorExit` cases are not embedded because no
theorem runs them, and no program below contains their bytes.  Like the
Go `switch`, an opcode byte without a case leaves the state unchanged.
The `OpIsError` case is modelled from the spec (peek the top of the
stack and push a Boolean saying whether it is an Error): the dispatch of
the error-pipe opcodes is not part of the `src` VM revision, while its
emitters (the compiler's let / `<<` lowering) and its tests are. -/
def execOp (op ip : Nat) (st : VMState) : Except RunErr VMState :=
  let ins := (st.frames.headD default).ins
  if op = opConstant then
    let constIndex := readUint16 (ins.drop (ip + 1))
    let st := st.advanceIp 2
    match st.constants.get? constIndex with
    | none => .error .goPanic
    | some c => st.push c
  else if op = opAnd ∨ op = opOr then
    executeLogicalOperation op st
  else if op = opEqual ∨ op = opNotEqual ∨ op = opGreaterThan then
    executeComparison op st
  else if op = opTrue then st.push (.boolean true)
  else if op = opFalse then st.push (.boolean false)
  else if op = opBang then executeBangOperator st
  else if op = opNGT then executeNegateOperator st
  else if op = opNull then st.push .null
  else if op = opIndex then do
    let (index, st) ← st.pop
    let (left, st) ← st.pop
    executeIndexExpression left index st
  else if op = opJump then
    let pos := readUint16 (ins.drop (ip + 1))
    .ok (st.setIp ((pos : Int) - 1))
  else if op = opJumpNotTruthy then do
    let pos := readUint16 (ins.drop (ip + 1))
    let st := st.advanceIp 2
    let (condition, st) ← st.pop
    if !isTruthy condition then .ok (st.setIp ((pos : Int) - 1))
    else .ok st
  else if op = opSetGlobal then do
    let globalIndex := readUint16 (ins.drop (ip + 1))
    let st := st.advanceIp 2
    let (v, st) ← st.pop
    .ok { st with globals := fun n => if n = globalIndex then v else st.globals n }
  else if op = opGetGlobal then
    let globalIndex := readUint16 (ins.drop (ip + 1))
    let st := st.advanceIp 2
    st.push (st.globals globalIndex)
  else if op = opSetLocal then do
    let localIndex := readUint8 (ins.drop (ip + 1))
    let st := st.advanceIp 1
    let bp := (st.frames.headD default).basePointer
    let (v, st) ← st.pop
    if bp + localIndex < st.stack.length then
      .ok { st with stack := st.stack.set (bp + localIndex) v }
    else .error .goPanic
  else if op = opGetLocal then
    let localIndex := readUint8 (ins.drop (ip + 1))
    let st := st.advanceIp 1
    let bp := (st.frames.headD default).basePointer
    match st.stack.get? (bp + localIndex) with
    | some v => st.push v
    | none => .error .goPanic
  else if op = opGetFree then
    let freeIndex := readUint8 (ins.drop (ip + 1))
    let st := st.advanceIp 1
    match (st.frames.headD default).free.get? freeIndex with
    | some v => st.push v
    | none => .error .goPanic
  else if op = opCall then
    let numArgs := readUint8 (ins.drop (ip + 1))
    let st := st.advanceIp 1
    executeCall numArgs st
  else if op = opClosure then
    let constIndex := readUint16 (ins.drop (ip + 1))
    let numFree := readUint8 (ins.drop (ip + 3))
    let st := st.advanceIp 3
    pushClosure constIndex numFree st
  else if op = opCurrentClosure then
    let fr := st.frames.headD default
    st.push (.closure fr.ins fr.numLocals fr.numParams fr.free)
  else if op = opReturnValue then do
    let (returnValue, st) ← st.pop
    match st.frames with
    | [] => .error .goPanic
    | fr :: rest =>
      if fr.basePointer = 0 then
        -- sp := basePointer - 1 = -1; the following push writes
        -- stack[-1], a Go panic.
        .error .goPanic
      else
        let st := { st with frames := rest,
                            stack := st.stack.take (fr.basePointer - 1) }
        st.push returnValue
  else if op = opReturn then
    match st.frames with
    | [] => .error .goPanic
    | fr :: rest =>
      if fr.basePointer = 0 then .error .goPanic
      else
        let st := { st with frames := rest,
                            stack := st.stack.take (fr.basePointer - 1) }
        st.push .null
  else if op = opPop ∨ op = opSuppress then
    -- OpSuppress pops like OpPop; the suppression mark is `lastOpcode`,
    -- which the loop sets before dispatching.
    if 0 < st.stack.length then
      match st.pop with
      | .ok (_, st) => .ok st
      | .error e => .error e
    else .ok st
  else if op = opIsError then
    -- Modelled from the spec: peek the top of the stack; push a Boolean
    -- saying whether it is an Error.
    match st.stack.getLast? with
    | none => .error .goPanic
    | some v => st.push (.boolean (isErrorObj v))
  else .ok st

/-- Result of running the dispatch loop to completion. -/
inductive Outcome where
  | halted (st : VMState)
  | fatal (msg : String)
  | panicked

/-- `vm.Run`: while the current frame's `ip` is below
`len(instructions) - 1`, pre-increment `ip`, read the opcode, record it
as `lastOpcode` and dispatch.  `fuel` bounds the number of iterations;
`none` means the fuel ran out before the loop finished. -/
def runLoop : Nat → VMState → Option Outcome
  | 0, _ => none
  | fuel + 1, st =>
    match st.frames with
    | [] => some .panicked
    | fr :: rest =>
      if fr.ip < (fr.ins.length : Int) - 1 then
        let fr' := { fr with ip := fr.ip + 1 }
        let ipN := fr'.ip.toNat
        let op := fr'.ins.getD ipN 0
        let st' : VMState := { st with frames := fr' :: rest, lastOpcode := op }
        match execOp op ipN st' with
        | .ok st'' => runLoop fuel st''
        | .error (.fatal m) => some (.fatal m)
        | .error .goPanic => some .panicked
      else some (.halted st)

/-- `vm.New`: the program becomes the main function wrapped in the main
closure and main frame; the globals array starts out all nil (modelled
as `null`). -/
def vmNew (instructions : List Nat) (constants : List Obj) : VMState :=
  { constants := constants, stack := [], globals := fun _ => Obj.null,
    frames := [{ ins := instructions, numLocals := 0, numParams := 0,
                 free := [], ip := -1, basePointer := 0 }],
    lastOpcode := opConstant }

/-! ## The compiler (main.go, `Compiler`)

The embedding covers compilation in the main scope, which is where the
claims' statements compile: the symbol table is the top-level one, so
`Define` yields `GlobalScope` symbols with dense indices. -/

/-- `EmittedInstruction`. -/
structure EmittedInstruction where
  opcode : Nat
  position : Nat

/-- The main compilation scope plus the constant pool and the number of
symbols defined in the global symbol table. -/
structure CompState where
  instructions : List Nat
  constants : List Obj
  lastInstruction : EmittedInstruction
  previousInstruction : EmittedInstruction
  numDefinitions : Nat

/-- A fresh compiler (`compiler.New`) as used for a program that
references no builtins: empty main scope, empty constant pool. -/
def compInit : CompState :=
  { instructions := [], constants := [],
    lastInstruction := { opcode := 0, position := 0 },
    previousInstruction := { opcode := 0, position := 0 },
    numDefinitions := 0 }

/-- `Compiler.addConstant`: append and return the index. -/
def addConstant (st : CompState) (obj : Obj) : CompState × Nat :=
  ({ st with constants := st.constants ++ [obj] }, st.constants.length)

/-- `Compiler.emit` (= `Make`, `addInstruction`, `setLastInstruction`):
returns the byte position of the emitted instruction. -/
def emit (st : CompState) (op : Nat) (operands : List Nat) : CompState × Nat :=
  let ins := make op operands
  let pos := st.instructions.length
  ({ st with
      instructions := st.instructions ++ ins,
      previousInstruction := st.lastInstruction,
      lastInstruction := { opcode := op, position := pos } }, pos)

/-- `Compiler.replaceInstruction`: overwrite the bytes at `pos`. -/
def replaceInstruction (ins : List Nat) (pos : Nat) (newInstruction : List Nat) : List Nat :=
  ins.take pos ++ newInstruction ++ ins.drop (pos + newInstruction.length)

/-- `Compiler.changeOperand`: re-encode the instruction at `opPos` with
the patched operand (used to rewrite the `9999` placeholders). -/
def changeOperand (st : CompState) (opPos operand : Nat) : CompState :=
  let op := st.instructions.getD opPos 0
  { st with instructions := replaceInstruction st.instructions opPos (make op [operand]) }

/-- The expression fragment of the AST that the claims compile.  `lit v`
stands for an Integer / Float / String literal with value `v`: the
source compiles each of those as `OpConstant(addConstant(obj))`. -/
inductive Expr where
  | lit (v : Obj)
  | binop (op : String) (left right : Expr)

/-- `Compiler.Compile` on expressions: `<` compiles right-then-left and
`OpGreaterThan`; `<=` compiles left-then-right, `OpGreaterThan`,
`OpBang`; `>=` compiles right-then-left, `OpGreaterThan`, `OpBang`;
the remaining operators compile left-then-right followed by their
opcode; an unknown operator is a compile error. -/
def compileExpr : Expr → CompState → Except String CompState
  | .lit v, st =>
    let (st, idx) := addConstant st v
    .ok (emit st opConstant [idx]).1
  | .binop op l r, st =>
    if op = "<" then do
      let st ← compileExpr r st
      let st ← compileExpr l st
      .ok (emit st opGreaterThan []).1
    else if op = "<=" then do
      let st ← compileExpr l st
      let st ← compileExpr r st
      let st := (emit st opGreaterThan []).1
      .ok (emit st opBang []).1
    else if op = ">=" then do
      let st ← compileExpr r st
      let st ← compileExpr l st
      let st := (emit st opGreaterThan []).1
      .ok (emit st opBang []).1
    else do
      let st ← compileExpr l st
      let st ← compileExpr r st
      if op = "+" then .ok (emit st opAdd []).1
      else if op = "-" then .ok (emit st opSub []).1
      else if op = "*" then .ok (emit st opMul []).1
      else if op = "/" then .ok (emit st opDiv []).1
      else if op = "%" then .ok (emit st opMod []).1
      else if op = ">" then .ok (emit st opGreaterThan []).1
      else if op = "==" then .ok (emit st opEqual []).1
      else if op = "!=" then .ok (emit st opNotEqual []).1
      else if op = "and" then .ok (emit st opAnd []).1
      else if op = "or" then .ok (emit st opOr []).1
      else .error ("Unknown operator " ++ op)

/-- `Compiler.Compile`, `ast.LetStatement` case (main scope, so the
symbol is a Global): define the symbol, compile the value, then

* with the error-pipe flag: `OpIsError`; jump-if-not-error over the
  direct assignment; otherwise pop the value and assign `Null`,
* with the `unblock` flag (checked only when the error-pipe flag is
  clear): `OpIsError`; jump-if-not-error over the pop-and-assign-`Null`
  branch to the direct assignment,
* with neither: assign directly. -/
def compileLetStatement (st : CompState) (unblock errorPipe : Bool) (value : Expr) :
    Except String CompState := do
  let symIndex := st.numDefinitions
  let st := { st with numDefinitions := st.numDefinitions + 1 }
  let st ← compileExpr value st
  if errorPipe then
    let st := (emit st opIsError []).1
    let (st, jumpNotErrPos) := emit st opJumpNotTruthy [9999]
    let st := (emit st opSetGlobal [symIndex]).1
    let (st, jumpPos) := emit st opJump [9999]
    let afterTruePos := st.instructions.length
    let st := changeOperand st jumpNotErrPos afterTruePos
    let st := (emit st opPop []).1
    let st := (emit st opNull []).1
    let st := (emit st opSetGlobal [symIndex]).1
    let afterFalsePos := st.instructions.length
    .ok (changeOperand st jumpPos afterFalsePos)
  else if unblock then
    let st := (emit st opIsError []).1
    let (st, jumpNotErrPos) := emit st opJumpNotTruthy [9999]
    let st := (emit st opPop []).1
    let st := (emit st opNull []).1
    let st := (emit st opSetGlobal [symIndex]).1
    let (st, jumpPos) := emit st opJump [9999]
    let afterTruePos := st.instructions.length
    let st := changeOperand st jumpNotErrPos afterTruePos
    let st := (emit st opSetGlobal [symIndex]).1
    let afterFalsePos := st.instructions.length
    .ok (changeOperand st jumpPos afterFalsePos)
  else
    .ok (emit st opSetGlobal [symIndex]).1

/-- Compile a single let statement binding global 0 from a fresh
compiler, run the program and read back global 0.  `none` marks any
outcome other than a clean halt. -/
def letBinding (unblock errorPipe : Bool) (v : Obj) : Option Obj :=
  match compileLetStatement compInit unblock errorPipe (Expr.lit v) with
  | .error _ => none
  | .ok st =>
    match runLoop 32 (vmNew st.instructions st.constants) with
    | some (.halted st') => some (st'.globals 0)
    | _ => none

/-- Compile a single comparison between two literals from a fresh
compiler, run it, and return the final operand stack. -/
def comparisonRun (op : String) (a b : Obj) : Option (List Obj) :=
  match compileExpr (Expr.binop op (.lit a) (.lit b)) compInit with
  | .error _ => none
  | .ok st =>
    match runLoop 16 (vmNew st.instructions st.constants) with
    | some (.halted st') => some st'.stack
    | _ => none

/-! ## The tree-walking evaluator (evaluator/evaluator.go) -/

/-- The `<<` case of `evalPrefixExpression`: the Error itself when the
operand is an Error, otherwise `NULL`. -/
def evalErrorPipeOp (right : Obj) : Obj :=
  if isErrorObj right then right else .null

/-- The `ast.LetStatement` case of `Eval`.  `val` is the evaluated
right-hand side, `valueIsPipeOp` says whether the value expression is
syntactically a `<<` prefix expression, and the flags are the let's
`Unblock` / `ErrorPipe` fields.  The result is the value bound to the
name together with the value `Eval` returns for the statement (`none`
for Go's `nil`). -/
def evalLetResult (val : Obj) (valueIsPipeOp unblock errorPipe : Bool) :
    Obj × Option Obj :=
  if isErrorObj val then
    if valueIsPipeOp then (val, none)
    else if errorPipe then (val, none)
    else (.null, if unblock then none else some val)
  else
    if errorPipe then (.null, none)
    else (val, none)

/-! ## The lexer (token/token.go and lexer/lexer.go) -/

/-- `token.LookupIdent` over the `keywords` map of `token/token.go`:
note the Latin spellings `nullus`, `ac`, `aut` and the absence of
`null`, `and`, `or`, `break`, `continue`, `for`, `block`, `unblock`.
The strings on the right are the `token.TokenType` constants
(`LET = "VAR"`, `ELSE`, ...). -/
def lookupIdent (ident : String) : String :=
  if ident = "def" then "FUNCTION"
  else if ident = "var" then "VAR"
  else if ident = "true" then "TRUE"
  else if ident = "false" then "FALSE"
  else if ident = "nullus" then "NULL"
  else if ident = "if" then "IF"
  else if ident = "el" then "ELSE"
  else if ident = "elif" then "ELIF"
  else if ident = "while" then "WHILE"
  else if ident = "return" then "RETURN"
  else if ident = "ac" then "AND"
  else if ident = "aut" then "OR"
  else if ident = "suppress" then "SUPPRESS"
  else "IDENT"

/-- `lexer.isLetter`. -/
def isLetterCh (c : Char) : Bool :=
  ('a' ≤ c && c ≤ 'z') || ('A' ≤ c && c ≤ 'Z') || c = '_'

/-- `lexer.isDigit`. -/
def isDigitCh (c : Char) : Bool :=
  '0' ≤ c && c ≤ '9'

/-- `Lexer.readIdentifier`: the longest run of letters and digits from
the current position, and the remaining input. -/
def readIdentifier : List Char → List Char × List Char
  | [] => ([], [])
  | c :: cs =>
    if isLetterCh c || isDigitCh c then
      let (id, rest) := readIdentifier cs
      (c :: id, rest)
    else ([], c :: cs)

/-- The identifier branch of `Lexer.NextToken`: when the current
character is a letter, read an identifier and look its type up with
`LookupIdent`; the token carries (type, literal).  `none` when the
input does not start with a letter (some other branch of the switch
applies). -/
def nextTokenIdentifierBranch (input : String) : Option (String × String) :=
  match input.toList with
  | [] => none
  | c :: _ =>
    if isLetterCh c then
      let (id, _) := readIdentifier input.toList
      some (lookupIdent (String.mk id), String.mk id)
    else none

/-! ## Bytecode serialization (the `bytecode` package)

The byte stream is a `List Nat` of byte values.  Multi-byte fields are
little-endian, as `binary.Write(w, binary.LittleEndian, ...)` produces.
A Go `string` is serialized as its byte length followed by its bytes;
the embedding writes the character codes, which coincides with the
UTF-8 bytes exactly for ASCII strings — the well-formedness predicate
below restricts strings to ASCII. -/

/-- Little-endian encoding of `n` in `w` bytes (the value wraps at
`256 ^ w`, as the fixed-width `binary.Write` does). -/
def encLE : Nat → Nat → List Nat
  | 0, _ => []
  | w + 1, n => n % 256 :: encLE w (n / 256)

/-- Little-endian decoding of the first `w` bytes. -/
def decLE : Nat → List Nat → Nat
  | 0, _ => 0
  | w + 1, bytes => bytes.headD 0 + 256 * decLE w bytes.tail

/-- `binary.Write` of an `int32` (two's complement, little-endian). -/
def encInt32 (v : Int) : List Nat := encLE 4 ((v % (2 ^ 32)).toNat)

/-- `binary.Read` into an `int32`. -/
def decInt32 (bytes : List Nat) : Int :=
  let n := decLE 4 bytes
  if n < 2 ^ 31 then (n : Int) else (n : Int) - 2 ^ 32

/-- `binary.Write` of an `int64`. -/
def encInt64 (v : Int) : List Nat := encLE 8 ((v % (2 ^ 64)).toNat)

/-- `binary.Read` into an `int64`. -/
def decInt64 (bytes : List Nat) : Int :=
  let n := decLE 8 bytes
  if n < 2 ^ 63 then (n : Int) else (n : Int) - 2 ^ 64

mutual

/-- `serializeConstant` with its list helpers (the Go function recurses
over array elements and hash pairs in place; pairs are written key then
value in the hash's iteration order, which the association-list model
fixes as the list order).  Constants outside the eight serializable
kinds fall to the Go `default` branch, an error — modelled as `none`. -/
def serializeConstant : Obj → Option (List Nat)
  | .null => some [0]
  | .integer v => some (1 :: encInt64 v)
  | .float bits => some (2 :: encLE 8 bits)
  | .str s => some (3 :: (encInt32 s.length ++ s.data.map Char.toNat))
  | .boolean b => some (4 :: [if b then 1 else 0])
  | .array elems => do
      let body ← serializeList elems
      some (5 :: (encInt32 elems.length ++ body))
  | .hash pairs => do
      let body ← serializePairs pairs
      some (6 :: (encInt32 pairs.length ++ body))
  | .compiledFunction ins nl np =>
      some (7 :: (encInt32 ins.length ++ ins ++ encInt32 nl ++ encInt32 np))
  | _ => none

def serializeList : List Obj → Option (List Nat)
  | [] => some []
  | o :: os => do
      let s ← serializeConstant o
      let rest ← serializeList os
      some (s ++ rest)

def serializePairs : List (Obj × Obj) → Option (List Nat)
  | [] => some []
  | p :: ps => do
      let k ← serializeConstant p.1
      let v ← serializeConstant p.2
      let rest ← serializePairs ps
      some (k ++ (v ++ rest))

end

mutual

/-- `deserializeConstant` with its element readers, fuel-indexed (the Go
recursion is bounded by the input stream; `fuel` bounds the nesting
depth).  A truncated stream is an `io.ReadFull` error, a negative count
makes the Go `make` panic, and an unhashable hash key is rejected — all
modelled as `none`. -/
def deserializeConstant : Nat → List Nat → Option (Obj × List Nat)
  | 0, _ => none
  | fuel + 1, bytes =>
    match bytes with
    | [] => none
    | t :: rest =>
      if t = 0 then some (.null, rest)
      else if t = 1 then
        if 8 ≤ rest.length then some (.integer (decInt64 (rest.take 8)), rest.drop 8)
        else none
      else if t = 2 then
        if 8 ≤ rest.length then some (.float (decLE 8 (rest.take 8)), rest.drop 8)
        else none
      else if t = 3 then
        if 4 ≤ rest.length then
          let len := decInt32 (rest.take 4)
          let rest := rest.drop 4
          if len < 0 then none
          else if len.toNat ≤ rest.length then
            some (.str (String.mk ((rest.take len.toNat).map Char.ofNat)),
              rest.drop len.toNat)
          else none
        else none
      else if t = 4 then
        match rest with
        | [] => none
        | b :: rest => some (.boolean (b ≠ 0), rest)
      else if t = 5 then
        if 4 ≤ rest.length then
          let len := decInt32 (rest.take 4)
          if len < 0 then none
          else do
            let (elems, rest') ← deserializeListC fuel len.toNat (rest.drop 4)
            some (.array elems, rest')
        else none
      else if t = 6 then
        if 4 ≤ rest.length then
          let len := decInt32 (rest.take 4)
          if len < 0 then none
          else do
            let (pairs, rest') ← deserializePairsC fuel len.toNat (rest.drop 4)
            some (.hash pairs, rest')
        else none
      else if t = 7 then
        if 4 ≤ rest.length then
          let insLen := decInt32 (rest.take 4)
          let rest := rest.drop 4
          if insLen < 0 then none
          else if insLen.toNat ≤ rest.length then
            let ins := rest.take insLen.toNat
            let rest := rest.drop insLen.toNat
            if 8 ≤ rest.length then
              -- Go stores `int(numLocals)`; the object model's counts are
              -- naturals, and well-formed streams only carry non-negative
              -- counts.
              some (.compiledFunction ins (decInt32 (rest.take 4)).toNat
                (decInt32 ((rest.drop 4).take 4)).toNat, rest.drop 8)
            else none
          else none
        else none
      else none
termination_by fuel _ => (fuel, 0)

def deserializeListC : Nat → Nat → List Nat → Option (List Obj × List Nat)
  | _, 0, bytes => some ([], bytes)
  | fuel, n + 1, bytes => do
      let (o, rest) ← deserializeConstant fuel bytes
      let (os, rest') ← deserializeListC fuel n rest
      some (o :: os, rest')
termination_by fuel n _ => (fuel, n + 1)

def deserializePairsC : Nat → Nat → List Nat → Option (List (Obj × Obj) × List Nat)
  | _, 0, bytes => some ([], bytes)
  | fuel, n + 1, bytes => do
      let (k, rest) ← deserializeConstant fuel bytes
      let (v, rest') ← deserializeConstant fuel rest
      if hashableB k then
        let (ps, rest'') ← deserializePairsC fuel n rest'
        some ((k, v) :: ps, rest'')
      else none
termination_by fuel n _ => (fuel, n + 1)

end

mutual

/-- Nesting depth of a constant, the fuel the deserializer needs. -/
def depthObj : Obj → Nat
  | .array elems => depthList elems + 1
  | .hash pairs => depthPairs pairs + 1
  | _ => 1

def depthList : List Obj → Nat
  | [] => 0
  | o :: os => max (depthObj o) (depthList os)

def depthPairs : List (Obj × Obj) → Nat
  | [] => 0
  | p :: ps => max (max (depthObj p.1) (depthObj p.2)) (depthPairs ps)

end

mutual

/-- Serializable well-formed constants: the eight kinds the format
covers, with the fixed-width fields in range (`int64` integers, 64-bit
float patterns, `int32` lengths and counts), instruction and byte
values actual bytes, ASCII strings, and hashable, pairwise distinct
hash keys. -/
def WFconst : Obj → Prop
  | .integer v => -(2 ^ 63) ≤ v ∧ v < 2 ^ 63
  | .float bits => bits < 2 ^ 64
  | .str s => s.length < 2 ^ 31 ∧ ∀ c ∈ s.data, c.toNat < 128
  | .boolean _ => True
  | .null => True
  | .array elems => elems.length < 2 ^ 31 ∧ WFlist elems
  | .hash pairs => pairs.length < 2 ^ 31 ∧
      pairs.Pairwise (fun p q => sameHashKey p.1 q.1 = false) ∧ WFpairs pairs
  | .compiledFunction ins nl np =>
      ins.length < 2 ^ 31 ∧ (∀ b ∈ ins, b < 256) ∧ nl < 2 ^ 31 ∧ np < 2 ^ 31
  | _ => False

def WFlist : List Obj → Prop
  | [] => True
  | o :: os => WFconst o ∧ WFlist os

def WFpairs : List (Obj × Obj) → Prop
  | [] => True
  | p :: ps => hashableB p.1 = true ∧ WFconst p.1 ∧ WFconst p.2 ∧ WFpairs ps

end

/-- `bytecode.Package` and its `Serialize` / `Deserialize`. -/
structure Package where
  version : Int
  instructions : List Nat
  constants : List Obj

/-- `Package.Serialize`: version, instruction length and bytes, constant
count, then each constant. -/
def serializePackage (p : Package) : Option (List Nat) := do
  let body ← serializeList p.constants
  some (encInt32 p.version ++ encInt32 p.instructions.length ++ p.instructions ++
    encInt32 p.constants.length ++ body)

/-- `bytecode.Deserialize`: read and check the version (`VERSION = 1`),
read the instructions, then the constants; trailing bytes are ignored
(the Go reader stops where the format ends). -/
def deserializePackage (bytes : List Nat) : Option Package :=
  if 4 ≤ bytes.length then
    let version := decInt32 (bytes.take 4)
    let bytes := bytes.drop 4
    if version ≠ 1 then none
    else if 4 ≤ bytes.length then
      let insLen := decInt32 (bytes.take 4)
      let bytes := bytes.drop 4
      if insLen < 0 then none
      else if insLen.toNat ≤ bytes.length then
        let instructions := bytes.take insLen.toNat
        let bytes := bytes.drop insLen.toNat
        if 4 ≤ bytes.length then
          let constLen := decInt32 (bytes.take 4)
          let bytes := bytes.drop 4
          if constLen < 0 then none
          else
            match deserializeListC bytes.length constLen.toNat bytes with
            | some (constants, _) =>
              some { version := version, instructions := instructions,
                     constants := constants }
            | none => none
        else none
      else none
    else none
  else none

/-! ## Round-trip lemmas for the fixed-width encodings -/

theorem encLE_length (w n : Nat) : (encLE w n).length = w := by
  induction w generalizing n with
  | zero => simp [encLE]
  | succ w ih => simp [encLE, ih]

theorem decLE_encLE (w n : Nat) (h : n < 256 ^ w) : decLE w (encLE w n) = n := by
  induction w generalizing n with
  | zero => simp at h; simp [encLE, decLE, h]
  | succ w ih =>
    have hdiv : n / 256 < 256 ^ w := by
      rw [Nat.div_lt_iff_lt_mul (by norm_num : (0 : Nat) < 256)]
      calc n < 256 ^ (w + 1) := h
        _ = 256 ^ w * 256 := by ring
    simp [encLE, decLE, ih (n / 256) hdiv]
    omega

theorem take_encLE (w n : Nat) (rest : List Nat) :
    (encLE w n ++ rest).take w = encLE w n :=
  List.take_left' (encLE_length w n)

theorem drop_encLE (w n : Nat) (rest : List Nat) :
    (encLE w n ++ rest).drop w = rest :=
  List.drop_left' (encLE_length w n)

theorem decInt32_encInt32_nat (n : Nat) (h : n < 2 ^ 31) :
    decInt32 (encInt32 (n : Int)) = (n : Int) := by
  have hm : (((n : Int) % 2 ^ 32).toNat) = n := by omega
  simp only [encInt32, decInt32, hm, decLE_encLE 4 n (by omega : n < 256 ^ 4)]
  rw [if_pos (by omega : n < 2 ^ 31)]

theorem decInt64_encInt64 (v : Int) (h1 : -(2 ^ 63) ≤ v) (h2 : v < 2 ^ 63) :
    decInt64 (encInt64 v) = v := by
  have hb : 0 ≤ v % 2 ^ 64 ∧ v % 2 ^ 64 < 2 ^ 64 := by
    constructor <;> omega
  have hm : (((v % 2 ^ 64).toNat) : Int) = v % 2 ^ 64 := Int.toNat_of_nonneg hb.1
  have hlt : (v % 2 ^ 64).toNat < 256 ^ 8 := by omega
  simp only [encInt64, decInt64, decLE_encLE _ _ hlt]
  split <;> rename_i hsplit <;> omega

theorem one_le_depthObj (c : Obj) : 1 ≤ depthObj c := by
  cases c <;> simp [depthObj]

theorem take_encInt32 (v : Int) (rest : List Nat) :
    (encInt32 v ++ rest).take 4 = encInt32 v :=
  take_encLE 4 _ rest

theorem drop_encInt32 (v : Int) (rest : List Nat) :
    (encInt32 v ++ rest).drop 4 = rest :=
  drop_encLE 4 _ rest

theorem take_encInt64 (v : Int) (rest : List Nat) :
    (encInt64 v ++ rest).take 8 = encInt64 v :=
  take_encLE 8 _ rest

theorem drop_encInt64 (v : Int) (rest : List Nat) :
    (encInt64 v ++ rest).drop 8 = rest :=
  drop_encLE 8 _ rest

theorem encInt32_length (v : Int) : (encInt32 v).length = 4 := encLE_length 4 _

theorem encInt64_length (v : Int) : (encInt64 v).length = 8 := encLE_length 8 _

/-- Well-formed constants serialize successfully (by strong induction on
the term size). -/
theorem serialize_total (k : Nat) :
    (∀ c : Obj, sizeOf c ≤ k → WFconst c → (serializeConstant c).isSome = true) ∧
    (∀ l : List Obj, sizeOf l ≤ k → WFlist l → (serializeList l).isSome = true) ∧
    (∀ ps : List (Obj × Obj), sizeOf ps ≤ k → WFpairs ps →
      (serializePairs ps).isSome = true) := by
  induction k using Nat.strong_induction_on with
  | _ k ih =>
    refine ⟨?_, ?_, ?_⟩
    · intro c hc hwf
      cases c with
      | array elems =>
        have hm : sizeOf elems < k := by simp at hc; omega
        have hb := (ih _ hm).2.1 elems le_rfl (by exact hwf.2)
        rcases Option.isSome_iff_exists.mp hb with ⟨body, hbody⟩
        simp [serializeConstant, hbody, bind, Option.bind]
      | hash pairs =>
        have hm : sizeOf pairs < k := by simp at hc; omega
        have hb := (ih _ hm).2.2 pairs le_rfl (by exact hwf.2.2)
        rcases Option.isSome_iff_exists.mp hb with ⟨body, hbody⟩
        simp [serializeConstant, hbody, bind, Option.bind]
      | error m l c => exact absurd hwf (by simp [WFconst])
      | closure i nl np fr => exact absurd hwf (by simp [WFconst])
      | builtin i => exact absurd hwf (by simp [WFconst])
      | _ => simp [serializeConstant]
    · intro l hl hwf
      cases l with
      | nil => simp [serializeList]
      | cons o os =>
        have hmo : sizeOf o < k := by simp at hl; omega
        have hms : sizeOf os < k := by simp at hl; omega
        rcases Option.isSome_iff_exists.mp ((ih _ hmo).1 o le_rfl hwf.1) with ⟨s1, h1⟩
        rcases Option.isSome_iff_exists.mp ((ih _ hms).2.1 os le_rfl hwf.2) with ⟨s2, h2⟩
        simp [serializeList, h1, h2, bind, Option.bind]
    · intro ps hp hwf
      cases ps with
      | nil => simp [serializePairs]
      | cons p ps =>
        have hmk : sizeOf p.1 < k := by
          rcases p with ⟨a, b⟩; simp at hp ⊢; omega
        have hmv : sizeOf p.2 < k := by
          rcases p with ⟨a, b⟩; simp at hp ⊢; omega
        have hmp : sizeOf ps < k := by simp at hp; omega
        rcases Option.isSome_iff_exists.mp
          ((ih _ hmk).1 p.1 le_rfl hwf.2.1) with ⟨s1, h1⟩
        rcases Option.isSome_iff_exists.mp
          ((ih _ hmv).1 p.2 le_rfl hwf.2.2.1) with ⟨s2, h2⟩
        rcases Option.isSome_iff_exists.mp
          ((ih _ hmp).2.2 ps le_rfl hwf.2.2.2) with ⟨s3, h3⟩
        simp [serializePairs, h1, h2, h3, bind, Option.bind]

/-- The nesting depth of a constant is at most the length of its
serialization. -/
theorem depth_le_serLen (k : Nat) :
    (∀ (c : Obj) s, sizeOf c ≤ k → serializeConstant c = some s →
      depthObj c ≤ s.length) ∧
    (∀ (l : List Obj) s, sizeOf l ≤ k → serializeList l = some s →
      depthList l ≤ s.length) ∧
    (∀ (ps : List (Obj × Obj)) s, sizeOf ps ≤ k → serializePairs ps = some s →
      depthPairs ps ≤ s.length) := by
  induction k using Nat.strong_induction_on with
  | _ k ih =>
    refine ⟨?_, ?_, ?_⟩
    · intro c s hc hs
      cases c with
      | array elems =>
        have hm : sizeOf elems < k := by simp at hc; omega
        rcases hbody : serializeList elems with _ | body
        · simp [serializeConstant, hbody, bind, Option.bind] at hs
        · simp [serializeConstant, hbody, bind, Option.bind] at hs
          subst hs
          have := (ih _ hm).2.1 elems body le_rfl hbody
          simp [depthObj, encInt32_length]
          omega
      | hash pairs =>
        have hm : sizeOf pairs < k := by simp at hc; omega
        rcases hbody : serializePairs pairs with _ | body
        · simp [serializeConstant, hbody, bind, Option.bind] at hs
        · simp [serializeConstant, hbody, bind, Option.bind] at hs
          subst hs
          have := (ih _ hm).2.2 pairs body le_rfl hbody
          simp [depthObj, encInt32_length]
          omega
      | _ =>
        first
        | (simp [serializeConstant] at hs; subst hs; simp [depthObj])
        | (simp [serializeConstant] at hs; rcases hs with rfl; simp [depthObj])
        | (simp [serializeConstant] at hs)
    · intro l s hl hs
      cases l with
      | nil =>
        simp [serializeList] at hs; subst hs; simp [depthList]
      | cons o os =>
        have hmo : sizeOf o < k := by simp at hl; omega
        have hms : sizeOf os < k := by simp at hl; omega
        rcases h1 : serializeConstant o with _ | s1 <;>
          rcases h2 : serializeList os with _ | s2 <;>
          simp [serializeList, h1, h2, bind, Option.bind] at hs
        subst hs
        have d1 := (ih _ hmo).1 o s1 le_rfl h1
        have d2 := (ih _ hms).2.1 os s2 le_rfl h2
        simp [depthList]
        omega
    · intro ps s hp hs
      cases ps with
      | nil =>
        simp [serializePairs] at hs; subst hs; simp [depthPairs]
      | cons p ps =>
        have hmk : sizeOf p.1 < k := by rcases p with ⟨a, b⟩; simp at hp ⊢; omega
        have hmv : sizeOf p.2 < k := by rcases p with ⟨a, b⟩; simp at hp ⊢; omega
        have hmp : sizeOf ps < k := by simp at hp; omega
        rcases h1 : serializeConstant p.1 with _ | s1 <;>
          rcases h2 : serializeConstant p.2 with _ | s2 <;>
          rcases h3 : serializePairs ps with _ | s3 <;>
          simp [serializePairs, h1, h2, h3, bind, Option.bind] at hs
        subst hs
        have d1 := (ih _ hmk).1 p.1 s1 le_rfl h1
        have d2 := (ih _ hmv).1 p.2 s2 le_rfl h2
        have d3 := (ih _ hmp).2.2 ps s3 le_rfl h3
        simp [depthPairs]
        omega

set_option maxRecDepth 8192 in
/-- Deserializing a serialized well-formed constant from any stream
position gives the constant back and leaves the trailing bytes. -/
theorem deserialize_serialize_constant :
    ∀ fuel, ∀ (c : Obj) s rest, WFconst c → depthObj c ≤ fuel →
      serializeConstant c = some s →
      deserializeConstant fuel (s ++ rest) = some (c, rest) := by
  intro fuel
  induction fuel with
  | zero =>
    intro c s rest _ hd _
    exact absurd hd (by have := one_le_depthObj c; omega)
  | succ f ih =>
    have ihList : ∀ (l : List Obj) s rest, WFlist l → depthList l ≤ f →
        serializeList l = some s →
        deserializeListC f l.length (s ++ rest) = some (l, rest) := by
      intro l
      induction l with
      | nil =>
        intro s rest _ _ hs
        simp [serializeList] at hs; subst hs
        simp [deserializeListC.eq_def]
      | cons o os iho =>
        intro s rest hwf hd hs
        rcases h1 : serializeConstant o with _ | s1 <;>
          rcases h2 : serializeList os with _ | s2 <;>
          simp [serializeList, h1, h2, bind, Option.bind] at hs
        subst hs
        rw [WFlist] at hwf
        rw [depthList, Nat.max_le] at hd
        have e1 := ih o s1 (s2 ++ rest) hwf.1 hd.1 h1
        have e2 := iho s2 rest hwf.2 hd.2 h2
        simp only [List.length_cons]
        rw [deserializeListC.eq_def]
        simp only [List.append_assoc] at e1 e2 ⊢
        simp [e1, e2, bind, Option.bind]
    have ihPairs : ∀ (ps : List (Obj × Obj)) s rest, WFpairs ps →
        depthPairs ps ≤ f → serializePairs ps = some s →
        deserializePairsC f ps.length (s ++ rest) = some (ps, rest) := by
      intro ps
      induction ps with
      | nil =>
        intro s rest _ _ hs
        simp [serializePairs] at hs; subst hs
        simp [deserializePairsC.eq_def]
      | cons p ps ihp =>
        intro s rest hwf hd hs
        rcases h1 : serializeConstant p.1 with _ | s1 <;>
          rcases h2 : serializeConstant p.2 with _ | s2 <;>
          rcases h3 : serializePairs ps with _ | s3 <;>
          simp [serializePairs, h1, h2, h3, bind, Option.bind] at hs
        subst hs
        rw [WFpairs] at hwf
        rw [depthPairs, Nat.max_le, Nat.max_le] at hd
        have e1 := ih p.1 s1 (s2 ++ (s3 ++ rest)) hwf.2.1 hd.1.1 h1
        have e2 := ih p.2 s2 (s3 ++ rest) hwf.2.2.1 hd.1.2 h2
        have e3 := ihp s3 rest hwf.2.2.2 hd.2 h3
        simp only [List.length_cons]
        rw [deserializePairsC.eq_def]
        simp only [List.append_assoc] at e1 e2 e3 ⊢
        simp [e1, e2, e3, hwf.1, bind, Option.bind]
    intro c s rest hwf hd hs
    cases c with
    | null =>
      simp [serializeConstant] at hs; subst hs
      simp [deserializeConstant.eq_def]
    | integer v =>
      rw [WFconst] at hwf
      simp [serializeConstant] at hs; subst hs
      simp [deserializeConstant.eq_def, List.append_assoc, List.length_append,
        encInt64_length, take_encInt64, drop_encInt64,
        decInt64_encInt64 v hwf.1 hwf.2]
    | float bits =>
      rw [WFconst] at hwf
      simp [serializeConstant] at hs; subst hs
      have h8 : bits < 256 ^ 8 := by norm_num at hwf ⊢; omega
      simp [deserializeConstant.eq_def, List.append_assoc, List.length_append,
        encLE_length, take_encLE, drop_encLE, decLE_encLE 8 bits h8]
    | str astr =>
      rw [WFconst] at hwf
      simp [serializeConstant] at hs; subst hs
      have hlen : (astr.data.map Char.toNat).length = astr.length := by
        rw [List.length_map, String.length_data]
      have hdec := decInt32_encInt32_nat astr.length hwf.1
      have htake : ((astr.data.map Char.toNat) ++ rest).take astr.length =
          astr.data.map Char.toNat := List.take_left' hlen
      have hdrop : ((astr.data.map Char.toNat) ++ rest).drop astr.length = rest :=
        List.drop_left' hlen
      have hmap : (astr.data.map Char.toNat).map Char.ofNat = astr.data := by
        rw [List.map_map]
        simp [Function.comp_def, Char.ofNat_toNat]
      simp [deserializeConstant.eq_def, List.append_assoc, List.length_append,
        encInt32_length, take_encInt32, drop_encInt32, hdec, htake, hdrop,
        hmap, hlen]
    | boolean b =>
      simp [serializeConstant] at hs; subst hs
      cases b <;> simp [deserializeConstant.eq_def]
    | array elems =>
      rw [WFconst] at hwf
      rw [depthObj] at hd
      rcases hbody : serializeList elems with _ | body <;>
        simp [serializeConstant, hbody, bind, Option.bind] at hs
      subst hs
      have hdec := decInt32_encInt32_nat elems.length hwf.1
      have he := ihList elems body rest hwf.2 (by omega) hbody
      simp [deserializeConstant.eq_def, List.append_assoc, List.length_append,
        encInt32_length, take_encInt32, drop_encInt32, hdec, he,
        bind, Option.bind]
    | hash pairs =>
      rw [WFconst] at hwf
      rw [depthObj] at hd
      rcases hbody : serializePairs pairs with _ | body <;>
        simp [serializeConstant, hbody, bind, Option.bind] at hs
      subst hs
      have hdec := decInt32_encInt32_nat pairs.length hwf.1
      have he := ihPairs pairs body rest hwf.2.2 (by omega) hbody
      simp [deserializeConstant.eq_def, List.append_assoc, List.length_append,
        encInt32_length, take_encInt32, drop_encInt32, hdec, he,
        bind, Option.bind]
    | compiledFunction ins nl np =>
      rw [WFconst] at hwf
      simp [serializeConstant] at hs; subst hs
      have hdecI := decInt32_encInt32_nat ins.length hwf.1
      have hdecL := decInt32_encInt32_nat nl hwf.2.2.1
      have hdecP := decInt32_encInt32_nat np hwf.2.2.2
      have htakeI : (ins ++ (encInt32 (nl : Int) ++ (encInt32 (np : Int) ++ rest))).take
          ins.length = ins := List.take_left' rfl
      have hdropI : (ins ++ (encInt32 (nl : Int) ++ (encInt32 (np : Int) ++ rest))).drop
          ins.length = encInt32 (nl : Int) ++ (encInt32 (np : Int) ++ rest) :=
        List.drop_left' rfl
      have hdrop8 : (encInt32 (nl : Int) ++ (encInt32 (np : Int) ++ rest)).drop 8 =
          rest := by
        rw [show (8 : Nat) = 4 + 4 from rfl, ← List.drop_drop, drop_encInt32,
          drop_encInt32]
      simp [deserializeConstant.eq_def, List.append_assoc, List.length_append,
        encInt32_length, take_encInt32, drop_encInt32, hdecI, hdecL, hdecP,
        htakeI, hdropI, hdrop8]
      omega
    | error m l c => simp [WFconst] at hwf
    | closure i nl np fr => simp [WFconst] at hwf
    | builtin i => simp [WFconst] at hwf

set_option maxRecDepth 8192 in
/-- Deserializing a serialized well-formed constant pool (at any
sufficient fuel) gives the pool back. -/
theorem deserialize_serialize_list (fuel : Nat) :
    ∀ (l : List Obj) s rest, WFlist l → depthList l ≤ fuel →
      serializeList l = some s →
      deserializeListC fuel l.length (s ++ rest) = some (l, rest) := by
  intro l
  induction l with
  | nil =>
    intro s rest _ _ hs
    simp [serializeList] at hs; subst hs
    simp [deserializeListC.eq_def]
  | cons o os iho =>
    intro s rest hwf hd hs
    rcases h1 : serializeConstant o with _ | s1 <;>
      rcases h2 : serializeList os with _ | s2 <;>
      simp [serializeList, h1, h2, bind, Option.bind] at hs
    subst hs
    rw [WFlist] at hwf
    rw [depthList, Nat.max_le] at hd
    have e1 := deserialize_serialize_constant fuel o s1 (s2 ++ rest) hwf.1 hd.1 h1
    have e2 := iho s2 rest hwf.2 hd.2 h2
    simp only [List.length_cons]
    rw [deserializeListC.eq_def]
    simp only [List.append_assoc] at e1 e2 ⊢
    simp [e1, e2, bind, Option.bind]

/-! ## Theorems -/

set_option maxRecDepth 8192 in
/-- C5: for every compiled program whose constant pool holds only
serializable constants (well-formed Null, Integer, Float, String,
Boolean, Array, Hash, CompiledFunction values) and whose version is the
format version 1, deserializing the serialization reproduces the
package exactly — the version, the instruction bytes, and every
constant, recursively. -/
theorem bytecode_roundtrip (p : Package)
    (hv : p.version = 1)
    (hil : p.instructions.length < 2 ^ 31)
    (hcl : p.constants.length < 2 ^ 31)
    (hwf : WFlist p.constants) :
    ∃ bytes, serializePackage p = some bytes ∧ deserializePackage bytes = some p := by
  obtain ⟨body, hbody⟩ := Option.isSome_iff_exists.mp
    ((serialize_total (sizeOf p.constants)).2.1 p.constants le_rfl hwf)
  have hdepth : depthList p.constants ≤ body.length :=
    (depth_le_serLen (sizeOf p.constants)).2.1 p.constants body le_rfl hbody
  refine ⟨encInt32 p.version ++ encInt32 p.instructions.length ++ p.instructions ++
      encInt32 p.constants.length ++ body,
    by simp [serializePackage, hbody, bind, Option.bind], ?_⟩
  rcases p with ⟨pv, pins, pcs⟩
  simp only at hv hil hcl hwf hbody hdepth
  subst hv
  have hconsts := deserialize_serialize_list body.length pcs body [] hwf hdepth hbody
  have hver := decInt32_encInt32_nat 1 (by norm_num)
  have hdecI := decInt32_encInt32_nat pins.length hil
  have hdecC := decInt32_encInt32_nat pcs.length hcl
  have htakeI : (pins ++ (encInt32 (pcs.length : Int) ++ body)).take pins.length =
      pins := List.take_left' rfl
  have hdropI : (pins ++ (encInt32 (pcs.length : Int) ++ body)).drop pins.length =
      encInt32 (pcs.length : Int) ++ body := List.drop_left' rfl
  simp only [List.append_nil] at hconsts
  simp [deserializePackage, List.append_assoc, List.length_append, encInt32_length,
    take_encInt32, drop_encInt32, hver, hdecI, hdecC, htakeI, hdropI, hconsts,
    show ((1 : Nat) : Int) = (1 : Int) from rfl]
  decide

theorem bytecode_roundtrip_witness :
    (∃ p : Package,
      p.version = 1 ∧
      p.instructions.length < 2 ^ 31 ∧
      p.constants.length < 2 ^ 31 ∧
      WFlist p.constants ∧
      ∃ bytes, serializePackage p = some bytes ∧ deserializePackage bytes = some p) := by
  refine ⟨{ version := 1,
            instructions := [0, 0, 0, 20, 0, 0],
            constants := [.integer (-5), .str "hi", .boolean true, .null,
              .array [.float 7, .integer 1],
              .hash [(.str "a", .integer 1), (.integer 2, .null)],
              .compiledFunction [26] 2 1] },
    rfl, by norm_num, by norm_num, ?_, ?_⟩
  · simp [WFlist, WFconst, WFpairs, sameHashKey, hashableB, String.length]
  · exact bytecode_roundtrip _ rfl (by norm_num) (by norm_num)
      (by simp [WFlist, WFconst, WFpairs, sameHashKey, hashableB, String.length])

/-- C2 (counterexample): the input `null` does not lex as the Null
keyword token — `LookupIdent` maps it to `IDENT` because the keyword
map's Null spelling is `nullus`. -/
theorem lex_null_is_not_null_keyword :
    nextTokenIdentifierBranch "null" ≠ some ("NULL", "null") := by
  decide

/-- C2 (amended): the lexer's keyword set is
`def var true false nullus if el elif while return ac aut suppress`;
identifiers matching one of those become the corresponding keyword
token, while `null`, `and`, `or` (and `break`, `continue`, `for`,
`block`, `unblock`) lex as plain identifier tokens — the Null, And and
Or keywords are spelled `nullus`, `ac` and `aut`. -/
theorem lexer_keyword_table :
    nextTokenIdentifierBranch "def" = some ("FUNCTION", "def") ∧
    nextTokenIdentifierBranch "var" = some ("VAR", "var") ∧
    nextTokenIdentifierBranch "true" = some ("TRUE", "true") ∧
    nextTokenIdentifierBranch "false" = some ("FALSE", "false") ∧
    nextTokenIdentifierBranch "nullus" = some ("NULL", "nullus") ∧
    nextTokenIdentifierBranch "if" = some ("IF", "if") ∧
    nextTokenIdentifierBranch "el" = some ("ELSE", "el") ∧
    nextTokenIdentifierBranch "elif" = some ("ELIF", "elif") ∧
    nextTokenIdentifierBranch "while" = some ("WHILE", "while") ∧
    nextTokenIdentifierBranch "return" = some ("RETURN", "return") ∧
    nextTokenIdentifierBranch "ac" = some ("AND", "ac") ∧
    nextTokenIdentifierBranch "aut" = some ("OR", "aut") ∧
    nextTokenIdentifierBranch "suppress" = some ("SUPPRESS", "suppress") ∧
    nextTokenIdentifierBranch "null" = some ("IDENT", "null") ∧
    nextTokenIdentifierBranch "and" = some ("IDENT", "and") ∧
    nextTokenIdentifierBranch "or" = some ("IDENT", "or") ∧
    nextTokenIdentifierBranch "break" = some ("IDENT", "break") ∧
    nextTokenIdentifierBranch "continue" = some ("IDENT", "continue") ∧
    nextTokenIdentifierBranch "for" = some ("IDENT", "for") ∧
    nextTokenIdentifierBranch "block" = some ("IDENT", "block") ∧
    nextTokenIdentifierBranch "unblock" = some ("IDENT", "unblock") := by
  decide

/-- C3: the `cat` intrinsic itself computes the specified results
(`"hello" ↦ 5`, `[1,2,3] ↦ 3`, `1 ↦` the INTEGER error), but under the
full registry — where `cat` carries the class tag `array` — both the
compiler's bare-name rule and the evaluator's identifier lookup reject
the bare name `cat`, so `cat("hello")` cannot evaluate at all; the bare
name resolves only under the classless registry, where `cat` has no
class tag. -/
theorem cat_builtin_behavior_and_classed_rejection :
    catFn [.str "hello"] = .integer 5 ∧
    catFn [.array [.integer 1, .integer 2, .integer 3]] = .integer 3 ∧
    catFn [.integer 1] =
      .error "Argument 0 to `cat` is not supported, got INTEGER" 0 0 ∧
    compilerRejectsBareBuiltin catClassFull = true ∧
    evalIdentifierBuiltinArm "cat" catClassFull 0 =
      .error "Builtin 'cat' is in a class. Maybe use array.cat instead." 0 0 ∧
    compilerRejectsBareBuiltin catClassClassless = false ∧
    evalIdentifierBuiltinArm "cat" catClassClassless 0 = .builtin 0 :=
  ⟨rfl, rfl, rfl, rfl, rfl, rfl, rfl⟩

/-- C4 (counterexample): the compiled string ordering `"a" < "b"` does
not execute successfully — `executeStringComparison` handles only
equality, so the `OpGreaterThan` the compiler emits for `<` falls to its
`Unknown operator` default, which `Run()` returns as a fatal error
(the operator number in the message is this embedding's stable opcode
numbering). -/
theorem string_ordering_comparison_fails :
    (match compileExpr (Expr.binop "<" (.lit (.str "a")) (.lit (.str "b"))) compInit with
     | .ok st => runLoop 16 (vmNew st.instructions st.constants)
     | .error _ => none) = some (.fatal "Unknown operator: 11") ∧
    executeStringComparison opGreaterThan (.str "a") (.str "b") (vmNew [] []) =
      .error (.fatal "Unknown operator: 11") :=
  ⟨rfl, rfl⟩

/-- C4 (amended): the VM's comparison supports String pairs only for
equality (`==`, `!=`), which push Booleans; any ordering operator on a
String pair is a fatal `Unknown operator` error; Integer pairs do
support ordering through `OpGreaterThan`. -/
theorem string_comparison_equality_only (s1 s2 : String) (a b : Int)
    (st : VMState) (h : st.stack.length < StackSize) :
    executeStringComparison opEqual (.str s1) (.str s2) st =
      .ok { st with stack := st.stack ++ [.boolean (s2 == s1)] } ∧
    executeStringComparison opNotEqual (.str s1) (.str s2) st =
      .ok { st with stack := st.stack ++ [.boolean (s2 != s1)] } ∧
    executeStringComparison opGreaterThan (.str s1) (.str s2) st =
      .error (.fatal "Unknown operator: 11") ∧
    executeIntegerComparison opGreaterThan (.integer a) (.integer b) st =
      .ok { st with stack := st.stack ++ [.boolean (decide (a > b))] } := by
  have hle : ¬ StackSize ≤ st.stack.length := Nat.not_le.mpr h
  refine ⟨?_, ?_, ?_, ?_⟩
  · simp [executeStringComparison, VMState.push, nativeBoolToBooleanObject,
      opEqual, opNotEqual, opGreaterThan, hle]
  · simp [executeStringComparison, VMState.push, nativeBoolToBooleanObject,
      opEqual, opNotEqual, opGreaterThan, hle]
  · simp only [executeStringComparison, opEqual, opNotEqual, opGreaterThan]
    norm_num
    rfl
  · simp [executeIntegerComparison, VMState.push, nativeBoolToBooleanObject,
      opEqual, opNotEqual, opGreaterThan, hle]

theorem string_comparison_equality_only_witness :
    (vmNew [] []).stack.length < StackSize ∧
    executeStringComparison opGreaterThan (.str "x") (.str "y") (vmNew [] []) =
      .error (.fatal "Unknown operator: 11") :=
  ⟨by decide, (string_comparison_equality_only "x" "y" 0 0 (vmNew [] []) (by decide)).2.2.1⟩

/-- C6: an Array index that is negative or beyond `len-1` pushes `Null`
without an error, and a Hash lookup with a hashable key that has no
entry pushes `Null`; `executeIndexExpression` dispatches both shapes to
these handlers. -/
theorem container_index_miss_pushes_null
    (elems : List Obj) (i : Int) (pairs : List (Obj × Obj)) (k : Obj) (st : VMState)
    (hst : st.stack.length < StackSize)
    (hi : i < 0 ∨ i > (elems.length : Int) - 1)
    (hk : hashableB k = true)
    (hmiss : pairs.find? (fun p => sameHashKey p.1 k) = none) :
    executeArrayIndex (.array elems) (.integer i) st =
      .ok { st with stack := st.stack ++ [.null] } ∧
    executeHashIndex (.hash pairs) k st =
      .ok { st with stack := st.stack ++ [.null] } ∧
    executeIndexExpression (.array elems) (.integer i) st =
      executeArrayIndex (.array elems) (.integer i) st ∧
    executeIndexExpression (.hash pairs) k st =
      executeHashIndex (.hash pairs) k st := by
  have hle : ¬ StackSize ≤ st.stack.length := Nat.not_le.mpr hst
  refine ⟨?_, ?_, ?_, ?_⟩
  · simp [executeArrayIndex, hi, VMState.push, hle]
  · simp [executeHashIndex, hk, hmiss, VMState.push, hle]
  · simp [executeIndexExpression, Obj.typeName]
  · simp [executeIndexExpression, Obj.typeName]

theorem container_index_miss_pushes_null_witness :
    (vmNew [] []).stack.length < StackSize ∧
    ((5 : Int) < 0 ∨ (5 : Int) > (([Obj.integer 7].length : Int) - 1)) ∧
    hashableB (.str "k") = true ∧
    ([] : List (Obj × Obj)).find? (fun p => sameHashKey p.1 (.str "k")) = none ∧
    executeArrayIndex (.array [.integer 7]) (.integer 5) (vmNew [] []) =
      .ok { vmNew [] [] with stack := [.null] } :=
  ⟨by decide, by norm_num, rfl, rfl,
    (container_index_miss_pushes_null [.integer 7] 5 [] (.str "k") (vmNew [] [])
      (by decide) (by norm_num) rfl rfl).1⟩

/-- C8: calling a user closure with an argument count different from the
compiled function's parameter count, and pushing onto an operand stack
already holding `StackSize` values, are both fatal errors returned from
`Run()` (the `Outcome.fatal` result carries no state — no Error value is
pushed); shown both at the `callClosure` / `push` level and end to end
through the dispatch loop. -/
theorem fatal_arity_and_stack_overflow :
    (∀ (ins : List Nat) (numLocals numParams : Nat) (free : List Obj)
       (numArgs : Nat) (st : VMState), numArgs ≠ numParams →
       callClosure ins numLocals numParams free numArgs st =
         .error (.fatal ("Wrong number of arguments. Expected " ++ toString numParams ++
           ", got " ++ toString numArgs))) ∧
    (∀ (st : VMState) (o : Obj), StackSize ≤ st.stack.length →
       st.push o = .error (.fatal "STACK OVERFLOW")) ∧
    runLoop 10 (vmNew (make opClosure [0, 0] ++ make opCall [0])
        [.compiledFunction [] 1 1]) =
      some (.fatal "Wrong number of arguments. Expected 1, got 0") ∧
    (∀ (st : VMState) (rest : List Frame),
       st.frames = { ins := make opTrue [], numLocals := 0, numParams := 0,
                     free := [], ip := -1, basePointer := 0 } :: rest →
       StackSize ≤ st.stack.length →
       runLoop 2 st = some (.fatal "STACK OVERFLOW")) := by
  refine ⟨?_, ?_, rfl, ?_⟩
  · intro ins numLocals numParams free numArgs st h
    simp [callClosure, h]
  · intro st o h
    simp [VMState.push, h]
  · intro st rest hf hlen
    simp [runLoop, hf, execOp, make, operandWidths, encodeOperand, VMState.push, hlen,
      opConstant, opPop, opAdd, opSub, opMul, opDiv, opMod, opTrue, opFalse, opEqual,
      opNotEqual, opGreaterThan, opAnd, opOr, opBang, opNGT, opJumpNotTruthy, opJump,
      opNull, opGetGlobal, opSetGlobal, opArray, opHash, opIndex, opCall, opReturnValue,
      opReturn, opGetLocal, opSetLocal, opGetBuiltin, opClosure, opGetFree,
      opCurrentClosure, opDot, opSuppress, opIsError, opErrorExit]

/-- Decoding an emitted `u16` operand gives the operand back. -/
theorem readUint16_make (op target : Nat) (h2 : operandWidths op = [2])
    (h : target < 2 ^ 16) :
    readUint16 ((make op [target]).drop 1) = target := by
  simp [make, h2, encodeOperand, readUint16]
  omega

/-- C9: in every truthiness test of the VM, exactly `Boolean false` and
`Null` are non-truthy: the `isTruthy` predicate (used by
`OpJumpNotTruthy`), the logical `OpAnd` / `OpOr` operations and the
Bang operator all treat precisely those two values as non-truthy, and
Integer 0, Float 0.0, the empty String, empty Arrays and Hashes and
Error values all count as truthy. -/
theorem vm_truthiness_exactly_false_and_null :
    (∀ o : Obj, isTruthy o = false ↔ (o = .boolean false ∨ o = .null)) ∧
    isTruthy (.integer 0) = true ∧
    isTruthy (.float 0) = true ∧
    isTruthy (.str "") = true ∧
    isTruthy (.array []) = true ∧
    isTruthy (.hash []) = true ∧
    isTruthy (.error "e" 0 0) = true ∧
    (∀ (rest : List Obj) (o : Obj) (st : VMState),
       st.stack = rest ++ [o] → rest.length < StackSize →
       executeBangOperator st =
         .ok { st with stack := rest ++ [.boolean (!isTruthy o)] }) ∧
    (∀ (rest : List Obj) (l r : Obj) (st : VMState),
       st.stack = rest ++ [l, r] → rest.length < StackSize →
       executeLogicalOperation opAnd st =
         .ok { st with stack := rest ++ [.boolean (isTruthy l && isTruthy r)] } ∧
       executeLogicalOperation opOr st =
         .ok { st with stack := rest ++ [.boolean (isTruthy l || isTruthy r)] }) ∧
    (∀ (target : Nat) (cond : Obj) (rest : List Obj) (st : VMState),
       target < 2 ^ 16 →
       st.frames = [{ ins := make opJumpNotTruthy [target], numLocals := 0,
                      numParams := 0, free := [], ip := 0, basePointer := 0 }] →
       st.stack = rest ++ [cond] →
       execOp opJumpNotTruthy 0 st =
         .ok (if isTruthy cond
              then { st.advanceIp 2 with stack := rest }
              else { (st.advanceIp 2).setIp ((target : Int) - 1) with stack := rest })) := by
  refine ⟨?_, rfl, rfl, rfl, rfl, rfl, rfl, ?_, ?_, ?_⟩
  · intro o
    cases o
    case boolean b => cases b <;> simp [isTruthy]
    all_goals simp [isTruthy]
  · intro rest o st hs hlt
    have hle : ¬ StackSize ≤ rest.length := Nat.not_le.mpr hlt
    have hpop : st.pop = .ok (o, { st with stack := rest }) := by
      simp [VMState.pop, hs]
    cases o
    case boolean b =>
      cases b <;>
        simp [executeBangOperator, hpop, VMState.push, isTruthy, hle, bind, Except.bind]
    all_goals
      simp [executeBangOperator, hpop, VMState.push, isTruthy, hle, bind, Except.bind]
  · intro rest l r st hs hlt
    have hle : ¬ StackSize ≤ rest.length := Nat.not_le.mpr hlt
    have hpop1 : st.pop = .ok (r, { st with stack := rest ++ [l] }) := by
      have hs2 : st.stack = (rest ++ [l]) ++ [r] := by simp [hs]
      simp [VMState.pop, hs2]
    have hpop2 : VMState.pop { st with stack := rest ++ [l] } =
        .ok (l, { st with stack := rest }) := by
      simp [VMState.pop]
    constructor <;>
      simp [executeLogicalOperation, hpop1, hpop2, VMState.push, hle,
        nativeBoolToBooleanObject, opAnd, opOr, bind, Except.bind]
  · intro target cond rest st ht hf hs
    have hread : readUint16 ((make 16 [target]).tail) = target := by
      have h := readUint16_make opJumpNotTruthy target
        (by simp [operandWidths, opJumpNotTruthy, opConstant]) ht
      simpa [opJumpNotTruthy, List.drop_one] using h
    cases hc : isTruthy cond <;>
      simp [execOp, hf, hs, hc, hread, VMState.pop, VMState.advanceIp, VMState.setIp,
        withFrame, bind, Except.bind, List.getLast?_concat, List.dropLast_concat,
        opConstant, opAnd, opOr, opEqual, opNotEqual, opGreaterThan, opTrue,
        opFalse, opBang, opNGT, opNull, opIndex, opJump, opJumpNotTruthy]

theorem vm_truthiness_exactly_false_and_null_witness :
    (([] : List Obj).length < StackSize ∧
      executeBangOperator { constants := [], stack := [] ++ [.integer 0],
                            globals := fun _ => .null, frames := [], lastOpcode := 0 } =
        .ok { constants := [], stack := [] ++ [.boolean (!isTruthy (.integer 0))],
              globals := fun _ => .null, frames := [], lastOpcode := 0 } ) :=
  ⟨by decide,
   vm_truthiness_exactly_false_and_null.2.2.2.2.2.2.2.1 [] (.integer 0)
     { constants := [], stack := [] ++ [.integer 0], globals := fun _ => .null,
       frames := [], lastOpcode := 0 } rfl (by decide)⟩

/-- Projection of a compiled expression's code and constant pool. -/
def compiledBytes (e : Expr) : Option (List Nat × List Obj) :=
  match compileExpr e compInit with
  | .ok st => some (st.instructions, st.constants)
  | .error _ => none

set_option maxHeartbeats 1600000 in
/-- C1: binding semantics of the error-pipe and `unblock` let forms:
when the right-hand side evaluates to an Error, the error-pipe binds the
Error value, `unblock` binds Null, and with both flags the error-pipe
wins; when it evaluates to a non-Error value, the error-pipe binds Null
and `unblock` binds the value.  Shown on the compiled path
(`Compiler.Compile` of the `ast.LetStatement` with the flags, run on the
VM) and on the evaluator path (`Eval` of the `ast.LetStatement`), where
the `var X = << E` form also appears as a `<<` prefix value. -/
theorem let_error_pipe_unblock_semantics (v : Obj) :
    (isErrorObj v = true →
      letBinding false true v = some v ∧
      letBinding true false v = some .null ∧
      letBinding true true v = some v ∧
      evalLetResult v false false true = (v, none) ∧
      evalLetResult (evalErrorPipeOp v) true false false = (v, none) ∧
      evalLetResult v false true false = (.null, none) ∧
      evalLetResult v false true true = (v, none)) ∧
    (isErrorObj v = false →
      letBinding false true v = some .null ∧
      letBinding true false v = some v ∧
      letBinding false false v = some v ∧
      evalLetResult v false false true = (.null, none) ∧
      evalLetResult (evalErrorPipeOp v) true false false = (.null, none) ∧
      evalLetResult v false true false = (v, none)) := by
  constructor
  · intro h
    refine ⟨?_, ?_, ?_, ?_, ?_, ?_, ?_⟩ <;>
      simp [letBinding, compileLetStatement, compileExpr, addConstant, emit,
        changeOperand, replaceInstruction, compInit, runLoop, execOp, vmNew,
        VMState.push, VMState.pop, VMState.advanceIp, VMState.setIp, withFrame,
        readUint16, make, operandWidths, encodeOperand, bind, Except.bind,
        isTruthy, h, evalLetResult, evalErrorPipeOp, StackSize, opConstant, opPop,
        opAdd, opSub, opMul, opDiv, opMod, opTrue, opFalse, opEqual, opNotEqual,
        opGreaterThan, opAnd, opOr, opBang, opNGT, opJumpNotTruthy, opJump, opNull,
        opGetGlobal, opSetGlobal, opArray, opHash, opIndex, opCall, opReturnValue,
        opReturn, opGetLocal, opSetLocal, opGetBuiltin, opClosure, opGetFree,
        opCurrentClosure, opDot, opSuppress, opIsError, opErrorExit]
  · intro h
    refine ⟨?_, ?_, ?_, ?_, ?_, ?_⟩ <;>
      simp [letBinding, compileLetStatement, compileExpr, addConstant, emit,
        changeOperand, replaceInstruction, compInit, runLoop, execOp, vmNew,
        VMState.push, VMState.pop, VMState.advanceIp, VMState.setIp, withFrame,
        readUint16, make, operandWidths, encodeOperand, bind, Except.bind,
        isTruthy, h, evalLetResult, evalErrorPipeOp, StackSize, opConstant, opPop,
        opAdd, opSub, opMul, opDiv, opMod, opTrue, opFalse, opEqual, opNotEqual,
        opGreaterThan, opAnd, opOr, opBang, opNGT, opJumpNotTruthy, opJump, opNull,
        opGetGlobal, opSetGlobal, opArray, opHash, opIndex, opCall, opReturnValue,
        opReturn, opGetLocal, opSetLocal, opGetBuiltin, opClosure, opGetFree,
        opCurrentClosure, opDot, opSuppress, opIsError, opErrorExit]

theorem let_error_pipe_unblock_semantics_witness :
    (isErrorObj (.error "Undefined variable y" 1 1) = true ∧
      letBinding false true (.error "Undefined variable y" 1 1) =
        some (.error "Undefined variable y" 1 1) ∧
      letBinding true false (.error "Undefined variable y" 1 1) = some .null ∧
      letBinding true true (.error "Undefined variable y" 1 1) =
        some (.error "Undefined variable y" 1 1)) ∧
    (isErrorObj (.integer 5) = false ∧
      letBinding false true (.integer 5) = some .null ∧
      letBinding true false (.integer 5) = some (.integer 5)) :=
  ⟨⟨rfl,
    ((let_error_pipe_unblock_semantics (.error "Undefined variable y" 1 1)).1 rfl).1,
    ((let_error_pipe_unblock_semantics (.error "Undefined variable y" 1 1)).1 rfl).2.1,
    ((let_error_pipe_unblock_semantics (.error "Undefined variable y" 1 1)).1 rfl).2.2.1⟩,
   ⟨rfl,
    ((let_error_pipe_unblock_semantics (.integer 5)).2 rfl).1,
    ((let_error_pipe_unblock_semantics (.integer 5)).2 rfl).2.1⟩⟩

set_option maxHeartbeats 1600000 in
/-- C7: `a < b` compiles with the operand order swapped (constants are
added right operand first) followed by `OpGreaterThan`, and evaluates to
the Boolean `a < b`; `a <= b` compiles left-then-right followed by
`OpGreaterThan` and `OpBang`, evaluating to `a <= b`; `a >= b` compiles
right-then-left followed by `OpGreaterThan` and `OpBang`, evaluating to
`a >= b`. -/
theorem ordering_compiled_via_swapped_greaterthan (a b : Int) :
    compiledBytes (Expr.binop "<" (.lit (.integer a)) (.lit (.integer b))) =
      some (make opConstant [0] ++ make opConstant [1] ++ make opGreaterThan [],
        [.integer b, .integer a]) ∧
    comparisonRun "<" (.integer a) (.integer b) = some [.boolean (decide (a < b))] ∧
    compiledBytes (Expr.binop "<=" (.lit (.integer a)) (.lit (.integer b))) =
      some (make opConstant [0] ++ make opConstant [1] ++ make opGreaterThan [] ++
        make opBang [], [.integer a, .integer b]) ∧
    comparisonRun "<=" (.integer a) (.integer b) = some [.boolean (decide (a ≤ b))] ∧
    compiledBytes (Expr.binop ">=" (.lit (.integer a)) (.lit (.integer b))) =
      some (make opConstant [0] ++ make opConstant [1] ++ make opGreaterThan [] ++
        make opBang [], [.integer b, .integer a]) ∧
    comparisonRun ">=" (.integer a) (.integer b) = some [.boolean (decide (a ≥ b))] := by
  refine ⟨rfl, ?_, rfl, ?_, rfl, ?_⟩
  · simp [comparisonRun, compileExpr, addConstant, emit, compInit, runLoop, execOp,
      vmNew, executeComparison, executeIntegerComparison, VMState.push, VMState.pop,
      VMState.advanceIp, VMState.setIp, withFrame, bind, Except.bind, make,
      operandWidths, encodeOperand, readUint16, Obj.typeName,
      nativeBoolToBooleanObject, StackSize, gt_iff_lt, opConstant, opPop, opAdd,
      opSub, opMul, opDiv, opMod, opTrue, opFalse, opEqual, opNotEqual, opGreaterThan,
      opAnd, opOr, opBang, opNGT, opJumpNotTruthy, opJump, opNull, opGetGlobal,
      opSetGlobal, opArray, opHash, opIndex, opCall, opReturnValue, opReturn,
      opGetLocal, opSetLocal, opGetBuiltin, opClosure, opGetFree, opCurrentClosure,
      opDot, opSuppress, opIsError, opErrorExit]
  · cases hb : decide (a > b) with
    | true =>
      have hle : decide (a ≤ b) = false := decide_eq_false (by
        have := of_decide_eq_true hb; omega)
      simp [comparisonRun, compileExpr, addConstant, emit, compInit, runLoop, execOp,
        vmNew, executeComparison, executeIntegerComparison, executeBangOperator,
        VMState.push, VMState.pop, VMState.advanceIp, VMState.setIp, withFrame,
        bind, Except.bind, make, operandWidths, encodeOperand, readUint16, Obj.typeName, nativeBoolToBooleanObject,
        StackSize, hb, hle, opConstant, opPop, opAdd, opSub, opMul, opDiv, opMod,
        opTrue, opFalse, opEqual, opNotEqual, opGreaterThan, opAnd, opOr, opBang,
        opNGT, opJumpNotTruthy, opJump, opNull, opGetGlobal, opSetGlobal, opArray,
        opHash, opIndex, opCall, opReturnValue, opReturn, opGetLocal, opSetLocal,
        opGetBuiltin, opClosure, opGetFree, opCurrentClosure, opDot, opSuppress,
        opIsError, opErrorExit]
    | false =>
      have hle : decide (a ≤ b) = true := decide_eq_true (by
        have := of_decide_eq_false hb; omega)
      simp [comparisonRun, compileExpr, addConstant, emit, compInit, runLoop, execOp,
        vmNew, executeComparison, executeIntegerComparison, executeBangOperator,
        VMState.push, VMState.pop, VMState.advanceIp, VMState.setIp, withFrame,
        bind, Except.bind, make, operandWidths, encodeOperand, readUint16, Obj.typeName, nativeBoolToBooleanObject,
        StackSize, hb, hle, opConstant, opPop, opAdd, opSub, opMul, opDiv, opMod,
        opTrue, opFalse, opEqual, opNotEqual, opGreaterThan, opAnd, opOr, opBang,
        opNGT, opJumpNotTruthy, opJump, opNull, opGetGlobal, opSetGlobal, opArray,
        opHash, opIndex, opCall, opReturnValue, opReturn, opGetLocal, opSetLocal,
        opGetBuiltin, opClosure, opGetFree, opCurrentClosure, opDot, opSuppress,
        opIsError, opErrorExit]
  · cases hb : decide (b > a) with
    | true =>
      have hge : decide (b ≤ a) = false := decide_eq_false (by
        have := of_decide_eq_true hb; omega)
      simp [comparisonRun, compileExpr, addConstant, emit, compInit, runLoop, execOp,
        vmNew, executeComparison, executeIntegerComparison, executeBangOperator,
        VMState.push, VMState.pop, VMState.advanceIp, VMState.setIp, withFrame,
        bind, Except.bind, make, operandWidths, encodeOperand, readUint16, Obj.typeName, nativeBoolToBooleanObject,
        StackSize, hb, hge, GE.ge, opConstant, opPop, opAdd, opSub, opMul, opDiv,
        opMod, opTrue, opFalse, opEqual, opNotEqual, opGreaterThan, opAnd, opOr,
        opBang, opNGT, opJumpNotTruthy, opJump, opNull, opGetGlobal, opSetGlobal,
        opArray, opHash, opIndex, opCall, opReturnValue, opReturn, opGetLocal,
        opSetLocal, opGetBuiltin, opClosure, opGetFree, opCurrentClosure, opDot,
        opSuppress, opIsError, opErrorExit]
    | false =>
      have hge : decide (b ≤ a) = true := decide_eq_true (by
        have := of_decide_eq_false hb; omega)
      simp [comparisonRun, compileExpr, addConstant, emit, compInit, runLoop, execOp,
        vmNew, executeComparison, executeIntegerComparison, executeBangOperator,
        VMState.push, VMState.pop, VMState.advanceIp, VMState.setIp, withFrame,
        bind, Except.bind, make, operandWidths, encodeOperand, readUint16, Obj.typeName, nativeBoolToBooleanObject,
        StackSize, hb, hge, GE.ge, opConstant, opPop, opAdd, opSub, opMul, opDiv,
        opMod, opTrue, opFalse, opEqual, opNotEqual, opGreaterThan, opAnd, opOr,
        opBang, opNGT, opJumpNotTruthy, opJump, opNull, opGetGlobal, opSetGlobal,
        opArray, opHash, opIndex, opCall, opReturnValue, opReturn, opGetLocal,
        opSetLocal, opGetBuiltin, opClosure, opGetFree, opCurrentClosure, opDot,
        opSuppress, opIsError, opErrorExit]

/-- C10: the negate handler's operand type check admits both INTEGER and
FLOAT, but its body reads the operand through the
`operand.(*object.Integer)` type assertion, so a Float operand passes
the check and then panics instead of producing the negated Float;
Integer operands negate correctly. -/
theorem negate_admits_float_but_reads_integer :
    (∀ bits : Nat,
       executeNegateOperator { constants := [], stack := [.float bits],
                               globals := fun _ => .null, frames := [], lastOpcode := 0 } =
         .error .goPanic) ∧
    (∀ v : Int,
       executeNegateOperator { constants := [], stack := [.integer v],
                               globals := fun _ => .null, frames := [], lastOpcode := 0 } =
         .ok { constants := [], stack := [.integer (-v)],
               globals := fun _ => .null, frames := [], lastOpcode := 0 }) := by
  constructor <;> intro x <;>
    simp [executeNegateOperator, VMState.pop, Obj.typeName, VMState.push, StackSize,
      bind, Except.bind]

theorem fatal_arity_and_stack_overflow_witness :
    ((0 : Nat) ≠ 1 ∧
      callClosure [] 0 1 [] 0 (vmNew [] []) =
        .error (.fatal "Wrong number of arguments. Expected 1, got 0")) ∧
    (StackSize ≤ (List.replicate StackSize Obj.null).length ∧
      runLoop 2 { vmNew (make opTrue []) [] with stack := List.replicate StackSize .null } =
        some (.fatal "STACK OVERFLOW")) :=
  ⟨⟨by decide, fatal_arity_and_stack_overflow.1 [] 0 1 [] 0 (vmNew [] []) (by decide)⟩,
   ⟨by rw [List.length_replicate],
    fatal_arity_and_stack_overflow.2.2.2
      { vmNew (make opTrue []) [] with stack := List.replicate StackSize .null } []
      rfl (by rw [List.length_replicate])⟩⟩

end Squ1d
